import Mathlib

/-!
A shallow embedding of the cluster-autoscaler's Cluster State Snapshot &
Predicate Evaluation Engine, together with proofs about its behaviour.

The embedded functions follow the Go sources:
* `SchedulerBasedPredicateChecker.FitsAny`, `CheckPredicates`, `buildDebugInfo`,
  `SnapshotClusterState` and `DelegatingSchedulerSharedLister` (simulator package);
* `CreateNodeNameToInfoMap` (utils/scheduler package);
* `GetDaemonSetPodsForNode` and `newPod` (daemonset package).

The external scheduler framework (pre-filter and filter plugins) is kept
abstract: a `Framework` is a pre-filter verdict function plus an ordered list
of named filter plugins, with `runFilterPlugins` implementing the documented
chain contract (fixed order, first rejecting plugin short-circuits).

Go maps are modelled as association lists (for candidate-node iteration) or as
functions `String → Option _` (for the node-name-to-info map); `math/rand` is
modelled as an arbitrary stream of nonnegative draws, one per call.
-/

namespace Autoscaler

/-- A node taint (key/value/effect triple). -/
structure Taint where
  key : String := ""
  value : String := ""
  effect : String := ""
deriving DecidableEq, Repr

/-- `Node.Spec`: the fields of a node spec read by the engine. -/
structure NodeSpec where
  unschedulable : Bool := false
  taints : List Taint := []
deriving DecidableEq, Repr

/-- A cluster node: identity plus spec. -/
structure Node where
  name : String := ""
  spec : NodeSpec := {}
deriving DecidableEq, Repr

/-- Object metadata: the identity fields used by the embedded code. -/
structure ObjectMeta where
  name : String := ""
  nameSpace : String := ""
deriving DecidableEq, Repr

/-- `Pod.Spec`: node-name binding and the host ports the pod occupies. -/
structure PodSpec where
  nodeName : String := ""
  hostPorts : List Nat := []
deriving DecidableEq, Repr

/-- `Pod.Status`: the nominated-node hint used while preemption is pending. -/
structure PodStatus where
  nominatedNodeName : String := ""
deriving DecidableEq, Repr

/-- A workload (pod). -/
structure Pod where
  metadata : ObjectMeta := {}
  spec : PodSpec := {}
  status : PodStatus := {}
deriving DecidableEq, Repr

/-- `pod.Name` accessor. -/
def Pod.name (p : Pod) : String := p.metadata.name

/-- Aggregated node state (`schedulernodeinfo.NodeInfo`): an optional node
reference plus the pods assigned to it.  The node is `none` for entries not
yet backed by a machine fact. -/
structure NodeInfo where
  node : Option Node := none
  pods : List Pod := []
deriving DecidableEq, Repr

/-- `nodeInfo.Node().Spec.Unschedulable`; a nil node (a Go panic) defaults
to schedulable. -/
def NodeInfo.unschedulable (ni : NodeInfo) : Bool :=
  match ni.node with
  | some n => n.spec.unschedulable
  | none => false

/-- `nodeInfo.Node().Spec.Taints`; a nil node yields no taints. -/
def NodeInfo.nodeTaints (ni : NodeInfo) : List Taint :=
  match ni.node with
  | some n => n.spec.taints
  | none => []

/-- `nodeInfo.Node().Name`; a nil node yields the empty name. -/
def NodeInfo.nodeName (ni : NodeInfo) : String :=
  match ni.node with
  | some n => n.name
  | none => ""

/-- Scheduler framework status codes. -/
inductive StatusCode where
  | success
  | internalError
  | unschedulable
  | unschedulableAndUnresolvable
deriving DecidableEq, Repr

/-- A scheduler framework `Status`: a code plus reason strings. -/
structure Status where
  code : StatusCode := .success
  reasons : List String := []
deriving DecidableEq, Repr

/-- `status.IsSuccess()`. -/
def Status.isSuccess (s : Status) : Bool := s.code == .success

/-- `status.IsUnschedulable()`. -/
def Status.isUnschedulable (s : Status) : Bool :=
  s.code == .unschedulable || s.code == .unschedulableAndUnresolvable

/-- `status.Message()`: the reasons joined into one message. -/
def Status.message (s : Status) : String := String.intercalate ", " s.reasons

/-- One named filter plugin of the external scheduler framework. -/
structure FilterPlugin where
  name : String
  filter : Pod → NodeInfo → Status

/-- The scheduler framework as seen by the predicate checker: the composite
pre-filter verdict for a pod, and the ordered filter-plugin chain. -/
structure Framework where
  preFilterResult : Pod → Status
  filterPlugins : List FilterPlugin

/-- Modelled from the spec: the external framework's `RunFilterPlugins`
contract — per-node checks run in fixed registration order, the first
rejecting plugin short-circuits the rest, and the returned collection holds
the non-success statuses (empty when every plugin passes). -/
def runFilterPluginsGo (pod : Pod) (ni : NodeInfo) : List FilterPlugin → List (String × Status)
  | [] => []
  | pl :: rest =>
    let st := pl.filter pod ni
    if st.isSuccess then runFilterPluginsGo pod ni rest else [(pl.name, st)]

/-- `framework.RunFilterPlugins(ctx, state, pod, nodeInfo)`. -/
def runFilterPlugins (fw : Framework) (pod : Pod) (ni : NodeInfo) : List (String × Status) :=
  runFilterPluginsGo pod ni fw.filterPlugins

/-- Classification of a `PredicateError` (`InternalPredicateError` /
`NotSchedulablePredicateError`). -/
inductive PredicateErrorType where
  | internalPredicateError
  | notSchedulablePredicateError
deriving DecidableEq, Repr

/-- The classified result of a failed predicate check, as built by
`NewPredicateError`.  `debugInfo` holds the string the debug thunk produces. -/
structure PredicateError where
  errorType : PredicateErrorType
  filterName : String
  message : String
  reasons : List String
  debugInfo : String
deriving DecidableEq, Repr

/-- A deterministic rendering of a taint list, standing in for Go's `%#v`
formatting in `buildDebugInfo`. -/
def formatTaints (taints : List Taint) : String :=
  String.intercalate "," (taints.map fun t => t.key ++ "=" ++ t.value ++ ":" ++ t.effect)

/-- `SchedulerBasedPredicateChecker.buildDebugInfo`: for the TaintToleration
filter, a message holding the node's current taints; for every other filter,
the empty string (`emptyString`). -/
def buildDebugInfo (filterName : String) (ni : NodeInfo) : String :=
  if filterName = "TaintToleration" then
    "taints on node: " ++ formatTaints ni.nodeTaints
  else ""

/-- One framework invocation performed by the predicate checker: the
once-per-evaluation pre-filter run, or a filter-chain run against the named
node. -/
inductive FrameworkEvent where
  | preFilterRun
  | filterRun (nodeName : String)
deriving DecidableEq, Repr

/-- The `range filterStatuses` loop body of `CheckPredicates`: the first
non-success status, if any. -/
def firstNonSuccess : List (String × Status) → Option (String × Status)
  | [] => none
  | (n, st) :: rest => if st.isSuccess then firstNonSuccess rest else some (n, st)

/-- `SchedulerBasedPredicateChecker.CheckPredicates(pod, nodeInfo)`, paired
with the trace of framework invocations it performs.  `none` means the pod
fits the node. -/
def checkPredicatesT (fw : Framework) (pod : Pod) (ni : NodeInfo) :
    Option PredicateError × List FrameworkEvent :=
  let pre := fw.preFilterResult pod
  if !pre.isSuccess then
    (some { errorType := .internalPredicateError, filterName := "",
            message := pre.message, reasons := pre.reasons, debugInfo := "" },
     [.preFilterRun])
  else
    let statuses := runFilterPlugins fw pod ni
    let res : Option PredicateError :=
      match firstNonSuccess statuses with
      | none => none
      | some (filterName, st) =>
        if st.isUnschedulable then
          some { errorType := .notSchedulablePredicateError, filterName := filterName,
                 message := st.message, reasons := st.reasons,
                 debugInfo := buildDebugInfo filterName ni }
        else
          some { errorType := .internalPredicateError, filterName := filterName,
                 message := st.message, reasons := st.reasons,
                 debugInfo := buildDebugInfo filterName ni }
    (res, [.preFilterRun, .filterRun ni.nodeName])

/-- `CheckPredicates` proper (the result component of `checkPredicatesT`). -/
def checkPredicates (fw : Framework) (pod : Pod) (ni : NodeInfo) : Option PredicateError :=
  (checkPredicatesT fw pod ni).1

/-- The aggregate no-fit error message of `FitsAny`. -/
def noFitMessage (pod : Pod) : String := "cannot put pod " ++ pod.name ++ " on any node"

/-- The candidate-iteration loop of `FitsAny`: skip unschedulable nodes, run
the filter chain on the rest, return the first fitting candidate's name.
Candidates are an association list; the Go source iterates an unordered map,
so no claim below depends on the order.  The second component accumulates the
trace of filter-chain runs. -/
def fitsAnyGo (fw : Framework) (pod : Pod) :
    List (String × NodeInfo) → List FrameworkEvent → Except String String × List FrameworkEvent
  | [], evs => (.error (noFitMessage pod), evs)
  | (name, ni) :: rest, evs =>
    if ni.unschedulable then fitsAnyGo fw pod rest evs
    else
      let statuses := runFilterPlugins fw pod ni
      let evs' := evs ++ [.filterRun name]
      if statuses.all (fun p => p.2.isSuccess) then (.ok name, evs')
      else fitsAnyGo fw pod rest evs'

/-- `SchedulerBasedPredicateChecker.FitsAny(pod, nodeInfos)`, paired with the
trace of framework invocations it performs. -/
def fitsAnyT (fw : Framework) (pod : Pod) (nodeInfos : List (String × NodeInfo)) :
    Except String String × List FrameworkEvent :=
  let pre := fw.preFilterResult pod
  if !pre.isSuccess then
    (.error ("error running pre filter plugins for pod " ++ pod.name ++ "; " ++ pre.message),
     [.preFilterRun])
  else fitsAnyGo fw pod nodeInfos [.preFilterRun]

/-- `FitsAny` proper (the result component of `fitsAnyT`). -/
def fitsAny (fw : Framework) (pod : Pod) (nodeInfos : List (String × NodeInfo)) :
    Except String String :=
  (fitsAnyT fw pod nodeInfos).1

/-- The node name a pod is keyed under in `CreateNodeNameToInfoMap`:
`pod.Spec.NodeName`, falling back to `pod.Status.NominatedNodeName` when the
pod has no node yet. -/
def effectiveNodeName (pod : Pod) : String :=
  if pod.spec.nodeName = "" then pod.status.nominatedNodeName else pod.spec.nodeName

/-- The node-name-to-info map, modelled as a function from node names. -/
abbrev NodeInfoMap := String → Option NodeInfo

/-- Store `v` under key `k`. -/
def mapInsert (m : NodeInfoMap) (k : String) (v : NodeInfo) : NodeInfoMap :=
  fun k' => if k' = k then some v else m k'

/-- One step of the pod loop of `CreateNodeNameToInfoMap`: create the entry
if absent (`NewNodeInfo`), then `AddPod` (append the pod). -/
def addPodToMap (m : NodeInfoMap) (pod : Pod) : NodeInfoMap :=
  let nodeName := effectiveNodeName pod
  let info := (m nodeName).getD {}
  mapInsert m nodeName { info with pods := info.pods ++ [pod] }

/-- One step of the node loop of `CreateNodeNameToInfoMap`: create the entry
if absent, then `SetNode`. -/
def setNodeInMap (m : NodeInfoMap) (node : Node) : NodeInfoMap :=
  let info := (m node.name).getD {}
  mapInsert m node.name { info with node := some node }

/-- `CreateNodeNameToInfoMap(pods, nodes)`: key every pod under its effective
node name, set the node on every entry named by an input node, then drop the
incomplete entries (those whose node is still nil). -/
def createNodeNameToInfoMap (pods : List Pod) (nodes : List Node) : NodeInfoMap :=
  let m1 := pods.foldl addPodToMap (fun _ => none)
  let m2 := nodes.foldl setNodeInMap m1
  fun k =>
    match m2 k with
    | some info => if info.node.isSome then some info else none
    | none => none

/-- The snapshot installed into the delegating lister (`NewSnapshot` wraps a
node-info map). -/
abbrev Snapshot := NodeInfoMap

/-- `NewSnapshot(nodeInfoMap)`. -/
def newSnapshot (m : NodeInfoMap) : Snapshot := m

/-- `DelegatingSchedulerSharedLister`: a replaceable reference to the current
snapshot. -/
structure DelegatingSchedulerSharedLister where
  delegate : Snapshot

/-- `lister.NodeInfos()`: queries delegate to whatever snapshot is currently
referenced. -/
def DelegatingSchedulerSharedLister.nodeInfos
    (l : DelegatingSchedulerSharedLister) : String → Option NodeInfo :=
  l.delegate

/-- `lister.UpdateDelegate(delegate)`. -/
def updateDelegate (l : DelegatingSchedulerSharedLister) (d : Snapshot) :
    DelegatingSchedulerSharedLister :=
  { l with delegate := d }

/-- `SchedulerBasedPredicateChecker`: the framework, the delegating lister it
owns, and the fact listers.  The listers are modelled by the outcome the next
`List` call would produce (`.error` when the fact source is unavailable). -/
structure SchedulerBasedPredicateChecker where
  framework : Framework
  delegatingSharedLister : DelegatingSchedulerSharedLister
  nodeLister : Except String (List Node)
  podLister : Except String (List Pod)

/-- `SnapshotClusterState()`: list nodes and pods, build a fresh snapshot and
install it as the new delegate; on a listing failure return the error and
leave the checker untouched.  (`CreateNodeInfoMap` of the simulator package is
not among the provided sources; the repository's `CreateNodeNameToInfoMap`
stands in for it — the claims proved below do not depend on its contents.) -/
def snapshotClusterState (p : SchedulerBasedPredicateChecker) :
    Except String Unit × SchedulerBasedPredicateChecker :=
  match p.nodeLister with
  | .error e => (.error ("could not list Nodes; " ++ e), p)
  | .ok nodes =>
    match p.podLister with
    | .error e => (.error ("could not list Pods; " ++ e), p)
    | .ok pods =>
      (.ok (),
       { p with delegatingSharedLister :=
           (updateDelegate p.delegatingSharedLister
             (newSnapshot (createNodeNameToInfoMap pods nodes))) })

/-- The decimal digits of `n`, least significant first. -/
def decimalDigitsRev : Nat → List Nat
  | 0 => []
  | n + 1 => ((n + 1) % 10) :: decimalDigitsRev ((n + 1) / 10)
decreasing_by exact Nat.div_lt_self (Nat.succ_pos n) (by omega)

/-- Decimal rendering of a nonnegative integer, standing in for Go's `%d`
formatting in `fmt.Sprintf`. -/
def decimalRepr (n : Nat) : String :=
  if n = 0 then "0" else ⟨((decimalDigitsRev n).reverse.map Nat.digitChar)⟩

/-- The value a little-endian digit list denotes, inverse to
`decimalDigitsRev`. -/
def ofRev : List Nat → Nat
  | [] => 0
  | d :: ds => d + 10 * ofRev ds

/-- `DaemonSet.Spec`: the pod template. -/
structure PodTemplateSpec where
  metadata : ObjectMeta := {}
  spec : PodSpec := {}
deriving DecidableEq, Repr

/-- `DaemonSet.Spec`. -/
structure DaemonSetSpec where
  template : PodTemplateSpec := {}
deriving DecidableEq, Repr

/-- A daemonset template: identity plus pod template. -/
structure DaemonSet where
  metadata : ObjectMeta := {}
  spec : DaemonSetSpec := {}
deriving DecidableEq, Repr

/-- `newPod(ds, nodeName)`: copy the daemonset's pod template, take the
daemonset's namespace, name the pod `<dsName>-pod-<r>` where `r` is the
`rand.Int63()` draw of this call (a nonnegative integer supplied explicitly
here), and pin the pod to the node. -/
def newPod (ds : DaemonSet) (nodeName : String) (r : Nat) : Pod :=
  { metadata := { ds.spec.template.metadata with
      nameSpace := ds.metadata.nameSpace,
      name := ds.metadata.name ++ "-pod-" ++ decimalRepr r },
    spec := { ds.spec.template.spec with nodeName := nodeName },
    status := {} }

/-- Modelled from the spec: `BasicClusterSnapshot` — a map from node identity
to the node plus its pods, as far as the daemonset simulator exercises it
(the snapshot implementation is not among the provided sources). -/
abbrev ClusterSnapshot := List (String × Node × List Pod)

/-- Modelled from the spec: `NewBasicClusterSnapshot()` builds an empty
snapshot. -/
def newBasicClusterSnapshot : ClusterSnapshot := []

/-- The host ports occupied by the pods of a node. -/
def usedPorts (pods : List Pod) : List Nat := pods.flatMap (fun p => p.spec.hostPorts)

/-- Modelled from the spec: adding workloads in order to a node's state,
failing on a port conflict (a requested host port already in use). -/
def addPodsSeq : List Pod → List Pod → Except String (List Pod)
  | acc, [] => .ok acc
  | acc, p :: rest =>
    if p.spec.hostPorts.any (fun port => (usedPorts acc).contains port) then
      .error "PortConflict"
    else addPodsSeq (acc ++ [p]) rest

/-- Modelled from the spec: `AddNodeWithPods(node, pods)` — fail with
DuplicateNode if the identity is already present, otherwise create the node's
state and add each pod in order, failing atomically on the first conflict. -/
def addNodeWithPods (s : ClusterSnapshot) (n : Node) (pods : List Pod) :
    Except String ClusterSnapshot :=
  if s.any (fun e => e.1 = n.name) then .error "DuplicateNode"
  else
    match addPodsSeq [] pods with
    | .error e => .error e
    | .ok ps => .ok (s ++ [(n.name, n, ps)])

/-- The daemonset loop of `GetDaemonSetPodsForNode`: synthesize one pod per
daemonset (consuming one random draw per call, at successive stream
positions) and keep it iff the predicate check reports a fit. -/
def getDaemonSetPodsGo (snap : ClusterSnapshot) (nodeName : String)
    (checkPred : ClusterSnapshot → Pod → String → Option PredicateError)
    (randStream : Nat → Nat) : List DaemonSet → Nat → List Pod
  | [], _ => []
  | ds :: rest, i =>
    let pod := newPod ds nodeName (randStream i)
    if checkPred snap pod nodeName = none then
      pod :: getDaemonSetPodsGo snap nodeName checkPred randStream rest (i + 1)
    else getDaemonSetPodsGo snap nodeName checkPred randStream rest (i + 1)

/-- `GetDaemonSetPodsForNode(nodeInfo, daemonsets, predicateChecker)`: build a
single-node snapshot holding the node and its pods, then keep exactly the
synthetic daemonset pods that fit the node.  The predicate checker is the
abstract collaborator interface: it receives the snapshot, the synthetic pod
and the target node's name (`FakeNodeInfoForNodeName`).  A nil node (a Go
panic) is modelled as an error. -/
def getDaemonSetPodsForNode (ni : NodeInfo) (daemonsets : List DaemonSet)
    (checkPred : ClusterSnapshot → Pod → String → Option PredicateError)
    (randStream : Nat → Nat) : Except String (List Pod) :=
  match ni.node with
  | none => .error "nil node"
  | some n =>
    match addNodeWithPods newBasicClusterSnapshot n ni.pods with
    | .error e => .error e
    | .ok snap => .ok (getDaemonSetPodsGo snap n.name checkPred randStream daemonsets 0)

/-!
### Concrete fixtures

Small concrete frameworks, pods and nodes used by the witness and
counterexample theorems below.
-/

/-- A framework whose pre-filter passes and whose plugin chain is empty. -/
def fwTrivial : Framework := ⟨fun _ => {}, []⟩

/-- A framework whose pre-filter rejects every pod. -/
def fwPreFail : Framework :=
  ⟨fun _ => { code := .internalError, reasons := ["prefilter rejected"] }, []⟩

/-- A TaintToleration plugin that rejects every pod as unschedulable. -/
def plTaint : FilterPlugin :=
  ⟨"TaintToleration", fun _ _ => { code := .unschedulable, reasons := ["node has taints"] }⟩

/-- A framework whose only plugin is the rejecting TaintToleration plugin. -/
def fwTaint : Framework := ⟨fun _ => {}, [plTaint]⟩

/-- A pod named `p`. -/
def podP : Pod := { metadata := { name := "p" } }

/-- A node marked unschedulable. -/
def nodeUnsched : Node := { name := "n1", spec := { unschedulable := true } }

/-- Aggregated state of `nodeUnsched`, with no pods. -/
def niUnsched : NodeInfo := { node := some nodeUnsched }

/-- A schedulable node. -/
def nodeSched : Node := { name := "n2" }

/-- Aggregated state of `nodeSched`, with no pods. -/
def niSched : NodeInfo := { node := some nodeSched }

/-- A schedulable node carrying one taint. -/
def nodeTainted : Node :=
  { name := "n3", spec := { taints := [{ key := "k", value := "v", effect := "NoSchedule" }] } }

/-- Aggregated state of `nodeTainted`, with no pods. -/
def niTainted : NodeInfo := { node := some nodeTainted }

/-- The predicate error `checkPredicates fwTaint podP niTainted` produces. -/
def eTaint : PredicateError :=
  { errorType := .notSchedulablePredicateError, filterName := "TaintToleration",
    message := "node has taints", reasons := ["node has taints"],
    debugInfo := "taints on node: k=v:NoSchedule" }

/-- A predicate checker whose node lister is unavailable. -/
def checkerFail : SchedulerBasedPredicateChecker :=
  { framework := fwTrivial, delegatingSharedLister := ⟨fun _ => none⟩,
    nodeLister := .error "fact source unavailable", podLister := .ok [] }

/-- A pod with no node assignment but a nominated node `n1`. -/
def podNom : Pod := { metadata := { name := "waiting" }, status := { nominatedNodeName := "n1" } }

/-- A node named `n1`. -/
def nodeN1 : Node := { name := "n1" }

/-- A daemonset template in namespace `kube-system`. -/
def dsA : DaemonSet := { metadata := { name := "ds-a", nameSpace := "kube-system" } }

/-- A second daemonset template in namespace `kube-system`. -/
def dsB : DaemonSet := { metadata := { name := "ds-b", nameSpace := "kube-system" } }

/-! ### Lemmas about the filter chain and the predicate checker -/

theorem runFilterPluginsGo_eq_nil_iff (pod : Pod) (ni : NodeInfo) (pls : List FilterPlugin) :
    runFilterPluginsGo pod ni pls = [] ↔ ∀ pl ∈ pls, (pl.filter pod ni).isSuccess = true := by
  induction pls with
  | nil => simp [runFilterPluginsGo]
  | cons pl rest ih =>
    by_cases h : (pl.filter pod ni).isSuccess
    · simp [runFilterPluginsGo, h, ih]
    · simp only [runFilterPluginsGo, h, if_neg, Bool.false_eq_true, ite_false]
      constructor
      · intro hx; exact absurd hx (by simp)
      · intro hall; exact absurd (hall pl (List.mem_cons_self pl rest)) (by simpa using h)

theorem runFilterPluginsGo_shape (pod : Pod) (ni : NodeInfo) (pls : List FilterPlugin) :
    runFilterPluginsGo pod ni pls = [] ∨
      ∃ n st, runFilterPluginsGo pod ni pls = [(n, st)] ∧ st.isSuccess = false := by
  induction pls with
  | nil => exact Or.inl rfl
  | cons pl rest ih =>
    by_cases h : (pl.filter pod ni).isSuccess
    · simpa [runFilterPluginsGo, h] using ih
    · refine Or.inr ⟨pl.name, pl.filter pod ni, ?_, by simpa using h⟩
      simp [runFilterPluginsGo, h]

theorem runFilterPlugins_all_iff (fw : Framework) (pod : Pod) (ni : NodeInfo) :
    ((runFilterPlugins fw pod ni).all fun p => p.2.isSuccess) = true ↔
      runFilterPlugins fw pod ni = [] := by
  rcases runFilterPluginsGo_shape pod ni fw.filterPlugins with h | ⟨n, st, h, hst⟩
  · simp [runFilterPlugins] at h ⊢; simp [h]
  · simp [runFilterPlugins] at h ⊢; simp [h, hst]

theorem firstNonSuccess_runFilter_none_iff (fw : Framework) (pod : Pod) (ni : NodeInfo) :
    firstNonSuccess (runFilterPlugins fw pod ni) = none ↔ runFilterPlugins fw pod ni = [] := by
  rcases runFilterPluginsGo_shape pod ni fw.filterPlugins with h | ⟨n, st, h, hst⟩
  · simp [runFilterPlugins] at h ⊢; simp [h, firstNonSuccess]
  · simp [runFilterPlugins] at h ⊢; simp [h, firstNonSuccess, hst]

theorem checkPredicates_none_iff (fw : Framework) (pod : Pod) (ni : NodeInfo) :
    checkPredicates fw pod ni = none ↔
      ((fw.preFilterResult pod).isSuccess = true ∧ runFilterPlugins fw pod ni = []) := by
  by_cases hpre : (fw.preFilterResult pod).isSuccess
  · rw [checkPredicates, checkPredicatesT]
    simp only [hpre, Bool.not_true, Bool.false_eq_true, if_false]
    rcases h : firstNonSuccess (runFilterPlugins fw pod ni) with _ | ⟨n, st⟩
    · simp [hpre, (firstNonSuccess_runFilter_none_iff fw pod ni).mp h]
    · have hne : runFilterPlugins fw pod ni ≠ [] := by
        intro hx
        rw [(firstNonSuccess_runFilter_none_iff fw pod ni).mpr hx] at h
        exact Option.noConfusion h
      by_cases hu : st.isUnschedulable <;> simp [hu, hne]
  · rw [checkPredicates, checkPredicatesT]
    simp only [hpre]
    simp [hpre]

theorem checkPredicates_preFilter_fail (fw : Framework) (pod : Pod) (ni : NodeInfo)
    (hpre : (fw.preFilterResult pod).isSuccess = false) :
    checkPredicatesT fw pod ni =
      (some { errorType := .internalPredicateError, filterName := "",
              message := (fw.preFilterResult pod).message,
              reasons := (fw.preFilterResult pod).reasons, debugInfo := "" },
       [.preFilterRun]) := by
  rw [checkPredicatesT]
  simp [hpre]

/-! ### Lemmas about the candidate iteration of `FitsAny` -/

theorem fitsAnyGo_ok_iff (fw : Framework) (pod : Pod) (dss : List (String × NodeInfo)) :
    ∀ evs, (∃ name, (fitsAnyGo fw pod dss evs).1 = .ok name) ↔
      ∃ p ∈ dss, p.2.unschedulable = false ∧ runFilterPlugins fw pod p.2 = [] := by
  induction dss with
  | nil => intro evs; simp [fitsAnyGo]
  | cons hd rest ih =>
    intro evs
    obtain ⟨name, ni⟩ := hd
    by_cases hu : ni.unschedulable
    · rw [show fitsAnyGo fw pod ((name, ni) :: rest) evs = fitsAnyGo fw pod rest evs by
        simp [fitsAnyGo, hu]]
      rw [ih evs]
      constructor
      · rintro ⟨p, hp, h1, h2⟩; exact ⟨p, List.mem_cons_of_mem _ hp, h1, h2⟩
      · rintro ⟨p, hp, h1, h2⟩
        rcases List.mem_cons.mp hp with heq | hmem
        · exfalso; rw [heq] at h1; simp at h1; simp [h1] at hu
        · exact ⟨p, hmem, h1, h2⟩
    · by_cases hall : ((runFilterPlugins fw pod ni).all fun p => p.2.isSuccess) = true
      · rw [show fitsAnyGo fw pod ((name, ni) :: rest) evs =
            (.ok name, evs ++ [.filterRun name]) by simp [fitsAnyGo, hu, hall]]
        constructor
        · intro _
          exact ⟨(name, ni), List.mem_cons_self _ _, by simpa using hu,
            (runFilterPlugins_all_iff fw pod ni).mp hall⟩
        · intro _; exact ⟨name, rfl⟩
      · rw [show fitsAnyGo fw pod ((name, ni) :: rest) evs =
            fitsAnyGo fw pod rest (evs ++ [FrameworkEvent.filterRun name]) by
          simp [fitsAnyGo, hu, hall]]
        rw [ih (evs ++ [FrameworkEvent.filterRun name])]
        constructor
        · rintro ⟨p, hp, h1, h2⟩; exact ⟨p, List.mem_cons_of_mem _ hp, h1, h2⟩
        · rintro ⟨p, hp, h1, h2⟩
          rcases List.mem_cons.mp hp with heq | hmem
          · refine absurd hall ?_
            have : runFilterPlugins fw pod ni = [] := by
              have := h2; rw [heq] at this; exact this
            simp [this]
          · exact ⟨p, hmem, h1, h2⟩

theorem fitsAnyGo_result (fw : Framework) (pod : Pod) (dss : List (String × NodeInfo)) :
    ∀ evs, (∃ name, (fitsAnyGo fw pod dss evs).1 = .ok name) ∨
      (fitsAnyGo fw pod dss evs).1 = .error (noFitMessage pod) := by
  induction dss with
  | nil => intro evs; exact Or.inr rfl
  | cons hd rest ih =>
    intro evs
    obtain ⟨name, ni⟩ := hd
    by_cases hu : ni.unschedulable
    · simpa [fitsAnyGo, hu] using ih evs
    · by_cases hall : ((runFilterPlugins fw pod ni).all fun p => p.2.isSuccess) = true
      · exact Or.inl ⟨name, by simp [fitsAnyGo, hu, hall]⟩
      · simpa [fitsAnyGo, hu, hall] using ih (evs ++ [.filterRun name])

theorem fitsAnyGo_ok_mem (fw : Framework) (pod : Pod) (dss : List (String × NodeInfo)) :
    ∀ evs name, (fitsAnyGo fw pod dss evs).1 = .ok name →
      ∃ ni, (name, ni) ∈ dss ∧ ni.unschedulable = false ∧ runFilterPlugins fw pod ni = [] := by
  induction dss with
  | nil => intro evs name h; exact absurd h (by simp [fitsAnyGo])
  | cons hd rest ih =>
    intro evs name h
    obtain ⟨name', ni⟩ := hd
    by_cases hu : ni.unschedulable
    · rw [show fitsAnyGo fw pod ((name', ni) :: rest) evs = fitsAnyGo fw pod rest evs by
        simp [fitsAnyGo, hu]] at h
      obtain ⟨ni', hmem, h1, h2⟩ := ih evs name h
      exact ⟨ni', List.mem_cons_of_mem _ hmem, h1, h2⟩
    · by_cases hall : ((runFilterPlugins fw pod ni).all fun p => p.2.isSuccess) = true
      · rw [show fitsAnyGo fw pod ((name', ni) :: rest) evs =
            (.ok name', evs ++ [.filterRun name']) by simp [fitsAnyGo, hu, hall]] at h
        have hname : name' = name := by simpa using h
        exact ⟨ni, by simp [hname], by simpa using hu,
          (runFilterPlugins_all_iff fw pod ni).mp hall⟩
      · rw [show fitsAnyGo fw pod ((name', ni) :: rest) evs =
            fitsAnyGo fw pod rest (evs ++ [.filterRun name']) by simp [fitsAnyGo, hu, hall]] at h
        obtain ⟨ni', hmem, h1, h2⟩ := ih _ name h
        exact ⟨ni', List.mem_cons_of_mem _ hmem, h1, h2⟩

theorem fitsAnyGo_events (fw : Framework) (pod : Pod) (dss : List (String × NodeInfo)) :
    ∀ evs, ∃ l, (fitsAnyGo fw pod dss evs).2 = evs ++ l ∧
      ∀ e ∈ l, ∃ name ni, e = .filterRun name ∧ (name, ni) ∈ dss ∧ ni.unschedulable = false := by
  induction dss with
  | nil => intro evs; exact ⟨[], by simp [fitsAnyGo]⟩
  | cons hd rest ih =>
    intro evs
    obtain ⟨name, ni⟩ := hd
    by_cases hu : ni.unschedulable
    · obtain ⟨l, hl, hprop⟩ := ih evs
      refine ⟨l, by simpa [fitsAnyGo, hu] using hl, ?_⟩
      intro e he
      obtain ⟨nm, ni', he', hmem, hsch⟩ := hprop e he
      exact ⟨nm, ni', he', List.mem_cons_of_mem _ hmem, hsch⟩
    · by_cases hall : ((runFilterPlugins fw pod ni).all fun p => p.2.isSuccess) = true
      · refine ⟨[.filterRun name], by simp [fitsAnyGo, hu, hall], ?_⟩
        intro e he
        have : e = FrameworkEvent.filterRun name := by simpa using he
        exact ⟨name, ni, this, List.mem_cons_self _ _, by simpa using hu⟩
      · obtain ⟨l, hl, hprop⟩ := ih (evs ++ [.filterRun name])
        refine ⟨[.filterRun name] ++ l, ?_, ?_⟩
        · rw [show (fitsAnyGo fw pod ((name, ni) :: rest) evs) =
              fitsAnyGo fw pod rest (evs ++ [.filterRun name]) by simp [fitsAnyGo, hu, hall]]
          rw [hl, List.append_assoc]
        · intro e he
          rcases List.mem_append.mp he with he1 | he2
          · have : e = FrameworkEvent.filterRun name := by simpa using he1
            exact ⟨name, ni, this, List.mem_cons_self _ _, by simpa using hu⟩
          · obtain ⟨nm, ni', he', hmem, hsch⟩ := hprop e he2
            exact ⟨nm, ni', he', List.mem_cons_of_mem _ hmem, hsch⟩

/-! ### Lemmas about `createNodeNameToInfoMap` -/

theorem foldSetNode_preserves (nodes : List Node) :
    ∀ (m : NodeInfoMap) (k : String),
      (∃ info, m k = some info ∧ info.node.isSome = true) →
      ∃ info, (nodes.foldl setNodeInMap m) k = some info ∧ info.node.isSome = true := by
  induction nodes with
  | nil => intro m k h; simpa using h
  | cons n ns ih =>
    intro m k h
    rw [List.foldl_cons]
    apply ih
    by_cases hk : k = n.name
    · refine ⟨{ ((m n.name).getD {}) with node := some n }, ?_, rfl⟩
      simp [setNodeInMap, mapInsert, hk]
    · obtain ⟨info, h1, h2⟩ := h
      exact ⟨info, by simp [setNodeInMap, mapInsert, hk, h1], h2⟩

theorem foldSetNode_mem (nodes : List Node) :
    ∀ (m : NodeInfoMap) (node : Node), node ∈ nodes →
      ∃ info, (nodes.foldl setNodeInMap m) node.name = some info ∧ info.node.isSome = true := by
  induction nodes with
  | nil => intro m node h; exact absurd h (List.not_mem_nil node)
  | cons n ns ih =>
    intro m node h
    rcases List.mem_cons.mp h with heq | hmem
    · rw [List.foldl_cons]
      apply foldSetNode_preserves
      refine ⟨{ ((m n.name).getD {}) with node := some n }, ?_, rfl⟩
      simp [setNodeInMap, mapInsert, heq]
    · exact ih (setNodeInMap m n) node hmem

theorem foldSetNode_pods (nodes : List Node) :
    ∀ (m : NodeInfoMap) (k : String) (info : NodeInfo), m k = some info →
      ∃ info', (nodes.foldl setNodeInMap m) k = some info' ∧ info'.pods = info.pods := by
  induction nodes with
  | nil => intro m k info h; exact ⟨info, by simpa using h, rfl⟩
  | cons n ns ih =>
    intro m k info h
    rw [List.foldl_cons]
    by_cases hk : k = n.name
    · obtain ⟨info', h1, h2⟩ := ih (setNodeInMap m n) k
        { ((m n.name).getD {}) with node := some n }
        (by simp [setNodeInMap, mapInsert, hk])
      refine ⟨info', h1, ?_⟩
      rw [h2]
      simp [← hk, h]
    · exact ih (setNodeInMap m n) k info (by simp [setNodeInMap, mapInsert, hk, h])

theorem foldAddPod_preserves (pods : List Pod) :
    ∀ (m : NodeInfoMap) (k : String) (pod : Pod),
      (∃ info, m k = some info ∧ pod ∈ info.pods) →
      ∃ info, (pods.foldl addPodToMap m) k = some info ∧ pod ∈ info.pods := by
  induction pods with
  | nil => intro m k pod h; simpa using h
  | cons p ps ih =>
    intro m k pod h
    rw [List.foldl_cons]
    apply ih
    obtain ⟨info, h1, h2⟩ := h
    by_cases hk : k = effectiveNodeName p
    · have hm : m (effectiveNodeName p) = some info := hk ▸ h1
      refine ⟨{ info with pods := info.pods ++ [p] }, ?_, by simpa using Or.inl h2⟩
      simp [addPodToMap, mapInsert, hk, hm]
    · exact ⟨info, by simp [addPodToMap, mapInsert, hk, h1], h2⟩

theorem foldAddPod_mem (pods : List Pod) :
    ∀ (m : NodeInfoMap) (pod : Pod), pod ∈ pods →
      ∃ info, (pods.foldl addPodToMap m) (effectiveNodeName pod) = some info ∧
        pod ∈ info.pods := by
  induction pods with
  | nil => intro m pod h; exact absurd h (List.not_mem_nil pod)
  | cons p ps ih =>
    intro m pod h
    rcases List.mem_cons.mp h with heq | hmem
    · rw [List.foldl_cons]
      apply foldAddPod_preserves
      refine ⟨{ ((m (effectiveNodeName p)).getD {}) with
          pods := ((m (effectiveNodeName p)).getD {}).pods ++ [p] }, ?_, ?_⟩
      · simp [addPodToMap, mapInsert, heq]
      · simp [heq]
    · exact ih (addPodToMap m p) pod hmem

/-! ### Lemmas about the daemonset simulator and the synthetic-pod names -/

theorem getDaemonSetPodsGo_mem (snap : ClusterSnapshot) (nodeName : String)
    (checkPred : ClusterSnapshot → Pod → String → Option PredicateError)
    (randStream : Nat → Nat) :
    ∀ (dss : List DaemonSet) (i : Nat) (pod : Pod),
      pod ∈ getDaemonSetPodsGo snap nodeName checkPred randStream dss i ↔
        ∃ j, ∃ hj : j < dss.length,
          pod = newPod (dss.get ⟨j, hj⟩) nodeName (randStream (i + j)) ∧
          checkPred snap pod nodeName = none := by
  intro dss
  induction dss with
  | nil => intro i pod; simp [getDaemonSetPodsGo]
  | cons ds rest ih =>
    intro i pod
    by_cases hc : checkPred snap (newPod ds nodeName (randStream i)) nodeName = none
    · rw [show getDaemonSetPodsGo snap nodeName checkPred randStream (ds :: rest) i =
          newPod ds nodeName (randStream i) ::
            getDaemonSetPodsGo snap nodeName checkPred randStream rest (i + 1) by
        simp [getDaemonSetPodsGo, hc]]
      rw [List.mem_cons, ih (i + 1) pod]
      constructor
      · rintro (heq | ⟨j, hj, h1, h2⟩)
        · exact ⟨0, by simp, by simpa using heq, by rw [heq]; simpa using hc⟩
        · exact ⟨j + 1, by simpa using hj, by simpa [Nat.add_assoc, Nat.add_comm 1 j] using h1, h2⟩
      · rintro ⟨j, hj, h1, h2⟩
        cases j with
        | zero => exact Or.inl (by simpa using h1)
        | succ j' =>
          exact Or.inr ⟨j', by simpa using hj,
            by simpa [Nat.add_assoc, Nat.add_comm 1 j'] using h1, h2⟩
    · rw [show getDaemonSetPodsGo snap nodeName checkPred randStream (ds :: rest) i =
          getDaemonSetPodsGo snap nodeName checkPred randStream rest (i + 1) by
        simp [getDaemonSetPodsGo, hc]]
      rw [ih (i + 1) pod]
      constructor
      · rintro ⟨j, hj, h1, h2⟩
        exact ⟨j + 1, by simpa using hj, by simpa [Nat.add_assoc, Nat.add_comm 1 j] using h1, h2⟩
      · rintro ⟨j, hj, h1, h2⟩
        cases j with
        | zero =>
          exfalso
          have : pod = newPod ds nodeName (randStream i) := by simpa using h1
          rw [this] at h2
          exact hc h2
        | succ j' =>
          exact ⟨j', by simpa using hj,
            by simpa [Nat.add_assoc, Nat.add_comm 1 j'] using h1, h2⟩

theorem decimalDigitsRev_lt (n : Nat) : ∀ d ∈ decimalDigitsRev n, d < 10 := by
  induction n using Nat.strong_induction_on with
  | _ n ih =>
    cases n with
    | zero => simp [decimalDigitsRev]
    | succ m =>
      rw [decimalDigitsRev]
      intro d hd
      rcases List.mem_cons.mp hd with h | h
      · rw [h]; exact Nat.mod_lt _ (by omega)
      · exact ih ((m + 1) / 10) (Nat.div_lt_self (Nat.succ_pos m) (by omega)) d h

theorem ofRev_decimalDigitsRev (n : Nat) : ofRev (decimalDigitsRev n) = n := by
  induction n using Nat.strong_induction_on with
  | _ n ih =>
    cases n with
    | zero => simp [decimalDigitsRev, ofRev]
    | succ m =>
      rw [decimalDigitsRev, ofRev,
        ih ((m + 1) / 10) (Nat.div_lt_self (Nat.succ_pos m) (by omega))]
      omega

theorem decimalDigitsRev_injective : Function.Injective decimalDigitsRev := by
  intro a b h
  have h2 := congrArg ofRev h
  rwa [ofRev_decimalDigitsRev, ofRev_decimalDigitsRev] at h2

theorem digitChar_inj_fin :
    ∀ a b : Fin 10, Nat.digitChar a.val = Nat.digitChar b.val → a = b := by decide

theorem digitChar_inj {a b : Nat} (ha : a < 10) (hb : b < 10)
    (h : Nat.digitChar a = Nat.digitChar b) : a = b := by
  have := digitChar_inj_fin ⟨a, ha⟩ ⟨b, hb⟩ h
  exact congrArg Fin.val this

theorem map_digitChar_inj :
    ∀ (l1 l2 : List Nat), (∀ d ∈ l1, d < 10) → (∀ d ∈ l2, d < 10) →
      l1.map Nat.digitChar = l2.map Nat.digitChar → l1 = l2 := by
  intro l1
  induction l1 with
  | nil => intro l2 _ _ h; cases l2 <;> simpa using h
  | cons d ds ih =>
    intro l2 h1 h2 h
    cases l2 with
    | nil => simp at h
    | cons e es =>
      rw [List.map_cons, List.map_cons] at h
      have hde : Nat.digitChar d = Nat.digitChar e := (List.cons.injEq _ _ _ _ ▸ h).1
      have htl : ds.map Nat.digitChar = es.map Nat.digitChar := (List.cons.injEq _ _ _ _ ▸ h).2
      have hd10 : d < 10 := h1 d (List.mem_cons_self d ds)
      have he10 : e < 10 := h2 e (List.mem_cons_self e es)
      rw [digitChar_inj hd10 he10 hde,
        ih es (fun x hx => h1 x (List.mem_cons_of_mem _ hx))
          (fun x hx => h2 x (List.mem_cons_of_mem _ hx)) htl]

theorem decimalRepr_injective : Function.Injective decimalRepr := by
  intro a b h
  have hdata := congrArg String.data h
  by_cases ha : a = 0 <;> by_cases hb : b = 0
  · rw [ha, hb]
  · exfalso
    rw [decimalRepr, decimalRepr, if_pos ha, if_neg hb] at hdata
    have h0 : (List.map Nat.digitChar [0]) = (decimalDigitsRev b).reverse.map Nat.digitChar := by
      simpa using hdata
    have hlist : [0] = (decimalDigitsRev b).reverse :=
      map_digitChar_inj [0] ((decimalDigitsRev b).reverse) (by simp)
        (fun d hd => decimalDigitsRev_lt b d (List.mem_reverse.mp hd)) h0
    have hdig : decimalDigitsRev b = [0] := by
      have := congrArg List.reverse hlist
      simpa using this.symm
    have := ofRev_decimalDigitsRev b
    rw [hdig] at this
    simp [ofRev] at this
    exact hb this.symm
  · exfalso
    rw [decimalRepr, decimalRepr, if_neg ha, if_pos hb] at hdata
    have h0 : (decimalDigitsRev a).reverse.map Nat.digitChar = List.map Nat.digitChar [0] := by
      simpa using hdata
    have hlist : (decimalDigitsRev a).reverse = [0] :=
      map_digitChar_inj ((decimalDigitsRev a).reverse) [0]
        (fun d hd => decimalDigitsRev_lt a d (List.mem_reverse.mp hd)) (by simp) h0
    have hdig : decimalDigitsRev a = [0] := by
      have := congrArg List.reverse hlist
      simpa using this
    have := ofRev_decimalDigitsRev a
    rw [hdig] at this
    simp [ofRev] at this
    exact ha this.symm
  · rw [decimalRepr, decimalRepr, if_neg ha, if_neg hb] at hdata
    have h0 : (decimalDigitsRev a).reverse.map Nat.digitChar =
        (decimalDigitsRev b).reverse.map Nat.digitChar := hdata
    have hlist := map_digitChar_inj _ _
      (fun d hd => decimalDigitsRev_lt a d (List.mem_reverse.mp hd))
      (fun d hd => decimalDigitsRev_lt b d (List.mem_reverse.mp hd)) h0
    exact decimalDigitsRev_injective (List.reverse_injective hlist)

theorem string_append_cancel_left {s t u : String} (h : s ++ t = s ++ u) : t = u := by
  have hd := congrArg String.data h
  rw [String.data_append, String.data_append] at hd
  have h2 := List.append_cancel_left hd
  cases t; cases u
  exact congrArg String.mk h2

theorem newPod_name (ds : DaemonSet) (nodeName : String) (r : Nat) :
    (newPod ds nodeName r).metadata.name = ds.metadata.name ++ "-pod-" ++ decimalRepr r := rfl

/-! ### Claims -/

/-- C1 is false as stated: with a trivial framework (pre-check passes, empty
plugin chain) and a single candidate whose node is marked unschedulable, the
candidate passes `checkPredicates` with a fits result, yet `fitsAny` returns
the aggregate no-fit error instead of the candidate's identity. -/
theorem c1_counterexample :
    checkPredicates fwTrivial podP niUnsched = none ∧
    fitsAny fwTrivial podP [("n1", niUnsched)] = .error "cannot put pod p on any node" :=
  ⟨rfl, rfl⟩

/-- C1 (amended): `fitsAny(w, nodes)` returns the identity of some node exactly
when at least one node in the map is schedulable and passes
`checkPredicates(w, node)` with a fits result; when the pre-check passes and no
such node exists, `fitsAny` fails with the aggregate no-fit error, never a
node-specific rejection (when the pre-check rejects, it fails with the
pre-check's rejection, and no node passes `checkPredicates` either). -/
theorem c1_fitsAny_iff_schedulable_fits (fw : Framework) (pod : Pod)
    (nodeInfos : List (String × NodeInfo)) :
    ((∃ name, fitsAny fw pod nodeInfos = .ok name) ↔
      ∃ p ∈ nodeInfos, p.2.unschedulable = false ∧ checkPredicates fw pod p.2 = none) ∧
    ((fw.preFilterResult pod).isSuccess = true →
      (¬ ∃ p ∈ nodeInfos, p.2.unschedulable = false ∧ checkPredicates fw pod p.2 = none) →
      fitsAny fw pod nodeInfos = .error (noFitMessage pod)) := by
  by_cases hpre : (fw.preFilterResult pod).isSuccess
  · have heq : fitsAny fw pod nodeInfos = (fitsAnyGo fw pod nodeInfos [.preFilterRun]).1 := by
      simp [fitsAny, fitsAnyT, hpre]
    have hconv : ∀ p : String × NodeInfo,
        (p.2.unschedulable = false ∧ checkPredicates fw pod p.2 = none) ↔
          (p.2.unschedulable = false ∧ runFilterPlugins fw pod p.2 = []) := by
      intro p
      rw [checkPredicates_none_iff]
      constructor
      · rintro ⟨h1, _, h2⟩; exact ⟨h1, h2⟩
      · rintro ⟨h1, h2⟩; exact ⟨h1, hpre, h2⟩
    have hiff : (∃ name, fitsAny fw pod nodeInfos = .ok name) ↔
        ∃ p ∈ nodeInfos, p.2.unschedulable = false ∧ checkPredicates fw pod p.2 = none := by
      rw [heq, fitsAnyGo_ok_iff fw pod nodeInfos [.preFilterRun]]
      constructor
      · rintro ⟨p, hp, h⟩; exact ⟨p, hp, (hconv p).mpr h⟩
      · rintro ⟨p, hp, h⟩; exact ⟨p, hp, (hconv p).mp h⟩
    refine ⟨hiff, fun _ hnone => ?_⟩
    rcases fitsAnyGo_result fw pod nodeInfos [.preFilterRun] with ⟨name, hok⟩ | herr
    · exact absurd (hiff.mp ⟨name, heq ▸ hok⟩) hnone
    · rw [heq]; exact herr
  · have herr : fitsAny fw pod nodeInfos = .error ("error running pre filter plugins for pod "
        ++ pod.name ++ "; " ++ (fw.preFilterResult pod).message) := by
      simp [fitsAny, fitsAnyT, hpre]
    constructor
    · constructor
      · rintro ⟨name, h⟩
        rw [herr] at h
        exact Except.noConfusion h
      · rintro ⟨p, hp, h1, h2⟩
        rw [checkPredicates_none_iff] at h2
        exact absurd h2.1 (by simpa using hpre)
    · intro hp
      exact absurd hp (by simpa using hpre)

/-- Witness instantiating the amended C1 at a concrete input: one unschedulable
and one schedulable fitting candidate, and `fitsAny` returns an identity. -/
theorem c1_witness :
    ∃ name, fitsAny fwTrivial podP [("n1", niUnsched), ("n2", niSched)] = .ok name :=
  (c1_fitsAny_iff_schedulable_fits fwTrivial podP [("n1", niUnsched), ("n2", niSched)]).1.mpr
    ⟨("n2", niSched), by decide, by decide, by decide⟩

/-- C3: `fitsAny` runs the pre-check stage exactly once, never runs the
per-node chain against a candidate whose underlying node is marked
unschedulable, and when it succeeds the returned identity names a schedulable
candidate for which every filter plugin in the chain passed. -/
theorem c3_fitsAny_precheck_once_skips_unschedulable (fw : Framework) (pod : Pod)
    (nodeInfos : List (String × NodeInfo)) :
    ((fitsAnyT fw pod nodeInfos).2.count FrameworkEvent.preFilterRun = 1) ∧
    (∀ name, FrameworkEvent.filterRun name ∈ (fitsAnyT fw pod nodeInfos).2 →
      ∃ ni, (name, ni) ∈ nodeInfos ∧ ni.unschedulable = false) ∧
    (∀ name, (fitsAnyT fw pod nodeInfos).1 = .ok name →
      ∃ ni, (name, ni) ∈ nodeInfos ∧ ni.unschedulable = false ∧
        ∀ pl ∈ fw.filterPlugins, (pl.filter pod ni).isSuccess = true) := by
  by_cases hpre : (fw.preFilterResult pod).isSuccess
  · have heq : fitsAnyT fw pod nodeInfos = fitsAnyGo fw pod nodeInfos [.preFilterRun] := by
      simp [fitsAnyT, hpre]
    obtain ⟨l, hl, hprop⟩ := fitsAnyGo_events fw pod nodeInfos [FrameworkEvent.preFilterRun]
    refine ⟨?_, ?_, ?_⟩
    · rw [heq, hl, List.count_append]
      have hzero : l.count FrameworkEvent.preFilterRun = 0 := by
        rw [List.count_eq_zero]
        intro hmem
        obtain ⟨nm, ni, hev, _, _⟩ := hprop _ hmem
        exact FrameworkEvent.noConfusion hev
      rw [hzero]
      decide
    · intro name hmem
      rw [heq, hl] at hmem
      rcases List.mem_append.mp hmem with h1 | h2
      · have : FrameworkEvent.filterRun name = FrameworkEvent.preFilterRun := by simpa using h1
        exact FrameworkEvent.noConfusion this
      · obtain ⟨nm, ni, hev, hmem', hsch⟩ := hprop _ h2
        have hnm : name = nm := by
          injection hev
        exact ⟨ni, by rw [hnm]; exact hmem', hsch⟩
    · intro name hok
      rw [heq] at hok
      obtain ⟨ni, hmem, hsch, hrun⟩ :=
        fitsAnyGo_ok_mem fw pod nodeInfos [FrameworkEvent.preFilterRun] name hok
      exact ⟨ni, hmem, hsch, (runFilterPluginsGo_eq_nil_iff pod ni fw.filterPlugins).mp hrun⟩
  · have h2 : (fitsAnyT fw pod nodeInfos).2 = [FrameworkEvent.preFilterRun] := by
      simp [fitsAnyT, hpre]
    have h1 : (fitsAnyT fw pod nodeInfos).1 = .error ("error running pre filter plugins for pod "
        ++ pod.name ++ "; " ++ (fw.preFilterResult pod).message) := by
      simp [fitsAnyT, hpre]
    refine ⟨by rw [h2]; rfl, ?_, ?_⟩
    · intro name hmem
      rw [h2] at hmem
      have : FrameworkEvent.filterRun name = FrameworkEvent.preFilterRun := by simpa using hmem
      exact FrameworkEvent.noConfusion this
    · intro name hok
      rw [h1] at hok
      exact Except.noConfusion hok

/-- Witness instantiating C3 at a concrete input: the trace of a two-candidate
call holds exactly one pre-filter run. -/
theorem c3_witness :
    (fitsAnyT fwTrivial podP [("n1", niUnsched), ("n2", niSched)]).2.count
      FrameworkEvent.preFilterRun = 1 :=
  (c3_fitsAny_precheck_once_skips_unschedulable fwTrivial podP
    [("n1", niUnsched), ("n2", niSched)]).1

/-- C4: a pre-check rejection for a workload makes `checkPredicates` return the
same internal pre-filter rejection (empty filter name, pre-filter message and
reasons, no debug payload) for every node, and no per-node check runs (the
invocation trace is just the pre-filter run). -/
theorem c4_precheck_rejection_node_independent (fw : Framework) (pod : Pod)
    (hpre : (fw.preFilterResult pod).isSuccess = false) :
    (∀ ni1 ni2 : NodeInfo, checkPredicates fw pod ni1 = checkPredicates fw pod ni2) ∧
    (∀ ni : NodeInfo, checkPredicatesT fw pod ni =
      (some { errorType := .internalPredicateError, filterName := "",
              message := (fw.preFilterResult pod).message,
              reasons := (fw.preFilterResult pod).reasons, debugInfo := "" },
       [FrameworkEvent.preFilterRun])) := by
  have h := fun ni => checkPredicates_preFilter_fail fw pod ni hpre
  refine ⟨fun ni1 ni2 => ?_, h⟩
  unfold checkPredicates
  rw [h ni1, h ni2]

/-- Witness instantiating C4 at a concrete input: a pre-filter-rejecting
framework yields the same node-independent internal error on two different
nodes, with no per-node check in the trace. -/
theorem c4_witness :
    checkPredicates fwPreFail podP niUnsched = checkPredicates fwPreFail podP niSched ∧
    checkPredicatesT fwPreFail podP niSched =
      (some { errorType := .internalPredicateError, filterName := "",
              message := "prefilter rejected", reasons := ["prefilter rejected"],
              debugInfo := "" },
       [FrameworkEvent.preFilterRun]) := by
  have h := c4_precheck_rejection_node_independent fwPreFail podP (by decide)
  exact ⟨h.1 niUnsched niSched, (h.2 niSched).trans (by decide)⟩

/-- C10: `checkPredicates` does not consult the node's unschedulable flag — a
workload passing the pre-check fits an unschedulable node whenever every filter
plugin passes, even though `fitsAny` skips that same node and reports the
aggregate no-fit error. -/
theorem c10_checkPredicates_ignores_unschedulable (fw : Framework) (pod : Pod)
    (ni : NodeInfo) (n : Node) (hn : ni.node = some n) (hu : n.spec.unschedulable = true)
    (hpre : (fw.preFilterResult pod).isSuccess = true)
    (hpl : ∀ pl ∈ fw.filterPlugins, (pl.filter pod ni).isSuccess = true) :
    checkPredicates fw pod ni = none ∧
    fitsAny fw pod [(n.name, ni)] = .error (noFitMessage pod) := by
  have hrun : runFilterPlugins fw pod ni = [] :=
    (runFilterPluginsGo_eq_nil_iff pod ni fw.filterPlugins).mpr hpl
  have hunsched : ni.unschedulable = true := by
    simp [NodeInfo.unschedulable, hn, hu]
  refine ⟨(checkPredicates_none_iff fw pod ni).mpr ⟨hpre, hrun⟩, ?_⟩
  simp [fitsAny, fitsAnyT, hpre, fitsAnyGo, hunsched]

/-- Witness instantiating C10 at a concrete input: the unschedulable node fits
per `checkPredicates` but `fitsAny` rejects with the aggregate error. -/
theorem c10_witness :
    checkPredicates fwTrivial podP niUnsched = none ∧
    fitsAny fwTrivial podP [(nodeUnsched.name, niUnsched)] = .error (noFitMessage podP) :=
  c10_checkPredicates_ignores_unschedulable fwTrivial podP niUnsched nodeUnsched rfl rfl rfl
    (by intro pl hpl; exact absurd hpl (List.not_mem_nil pl))

/-- C2: the map built by `createNodeNameToInfoMap` contains an entry with a
present (non-nil) node for every input node, and no entry whose node is
absent — pod records matching no input node are dropped from the result. -/
theorem c2_createNodeNameToInfoMap_complete (pods : List Pod) (nodes : List Node) :
    (∀ node ∈ nodes, ∃ info, createNodeNameToInfoMap pods nodes node.name = some info ∧
      info.node.isSome = true) ∧
    (∀ k info, createNodeNameToInfoMap pods nodes k = some info → info.node.isSome = true) := by
  constructor
  · intro node hmem
    obtain ⟨info, h1, h2⟩ :=
      foldSetNode_mem nodes (pods.foldl addPodToMap fun _ => none) node hmem
    refine ⟨info, ?_, h2⟩
    simp only [createNodeNameToInfoMap]
    rw [h1]
    simp [h2]
  · intro k info h
    simp only [createNodeNameToInfoMap] at h
    rcases hm : (nodes.foldl setNodeInMap (pods.foldl addPodToMap fun _ => none)) k with
      _ | info'
    · rw [hm] at h
      exact Option.noConfusion h
    · rw [hm] at h
      by_cases hs : info'.node.isSome
      · simp only [hs, if_true] at h
        rw [← Option.some.inj h]
        exact hs
      · simp [hs] at h

/-- Witness instantiating C2 at a concrete input: a node plus an orphaned pod
record; the node's entry exists with a present node, and the orphan's key is
dropped. -/
theorem c2_witness :
    (∃ info, createNodeNameToInfoMap [podNom, podP] [nodeN1] nodeN1.name = some info ∧
      info.node.isSome = true) ∧
    ((createNodeNameToInfoMap [podNom, podP] [nodeN1] "") = none →
      ∀ info, createNodeNameToInfoMap [podNom, podP] [nodeN1] "" = some info →
        info.node.isSome = true) := by
  refine ⟨(c2_createNodeNameToInfoMap_complete [podNom, podP] [nodeN1]).1 nodeN1 (by decide),
    fun _ => (c2_createNodeNameToInfoMap_complete [podNom, podP] [nodeN1]).2 ""⟩

/-- C9: a pod whose node-name field is empty is keyed under its nominated-node
hint — when the nominated node exists among the input nodes, the pod appears in
that node's aggregated state. -/
theorem c9_nominated_pod_assigned (pods : List Pod) (nodes : List Node) (pod : Pod)
    (hmem : pod ∈ pods) (hempty : pod.spec.nodeName = "")
    (hnonempty : pod.status.nominatedNodeName ≠ "")
    (hnode : ∃ node ∈ nodes, node.name = pod.status.nominatedNodeName) :
    ∃ info, createNodeNameToInfoMap pods nodes pod.status.nominatedNodeName = some info ∧
      pod ∈ info.pods := by
  have heff : effectiveNodeName pod = pod.status.nominatedNodeName := by
    simp [effectiveNodeName, hempty]
  obtain ⟨info0, h0, hp0⟩ := foldAddPod_mem pods (fun _ => none) pod hmem
  rw [heff] at h0
  obtain ⟨info1, h1, hpods⟩ :=
    foldSetNode_pods nodes (pods.foldl addPodToMap fun _ => none)
      pod.status.nominatedNodeName info0 h0
  obtain ⟨node, hnmem, hname⟩ := hnode
  obtain ⟨info2, h2, hsome⟩ :=
    foldSetNode_mem nodes (pods.foldl addPodToMap fun _ => none) node hnmem
  rw [hname] at h2
  have hinfo : info2 = info1 := Option.some.inj (h2.symm.trans h1)
  refine ⟨info1, ?_, by rw [hpods]; exact hp0⟩
  have hsome1 : info1.node.isSome = true := hinfo ▸ hsome
  simp only [createNodeNameToInfoMap]
  rw [h1]
  simp [hsome1]

/-- Witness instantiating C9 at a concrete input: a pod with an empty node name
nominated to `n1` lands in `n1`'s aggregated state. -/
theorem c9_witness :
    ∃ info, createNodeNameToInfoMap [podNom] [nodeN1] podNom.status.nominatedNodeName =
      some info ∧ podNom ∈ info.pods :=
  c9_nominated_pod_assigned [podNom] [nodeN1] podNom (by decide) (by decide) (by decide)
    ⟨nodeN1, by decide, by decide⟩

/-- C5: when `snapshotClusterState` fails because facts cannot be listed, the
checker — in particular the delegating lister's installed snapshot — is left
unchanged, so repeated identical queries keep evaluating against the prior
snapshot with unchanged results. -/
theorem c5_refresh_failure_keeps_snapshot (p : SchedulerBasedPredicateChecker) (e : String)
    (h : (snapshotClusterState p).1 = .error e) :
    (snapshotClusterState p).2 = p ∧
    ∀ name, ((snapshotClusterState p).2).delegatingSharedLister.nodeInfos name =
      p.delegatingSharedLister.nodeInfos name := by
  have hstate : (snapshotClusterState p).2 = p := by
    rcases hn : p.nodeLister with en | nodes
    · simp [snapshotClusterState, hn]
    · rcases hp : p.podLister with ep | pods
      · simp [snapshotClusterState, hn, hp]
      · exfalso
        rw [show (snapshotClusterState p).1 = .ok () by simp [snapshotClusterState, hn, hp]] at h
        exact Except.noConfusion h
  exact ⟨hstate, fun name => by rw [hstate]⟩

/-- Witness instantiating C5 at a concrete input: a checker whose node lister
is unavailable keeps its installed snapshot across the failed refresh. -/
theorem c5_witness :
    (snapshotClusterState checkerFail).2 = checkerFail ∧
    ((snapshotClusterState checkerFail).2).delegatingSharedLister.nodeInfos "n1" =
      checkerFail.delegatingSharedLister.nodeInfos "n1" := by
  have h := c5_refresh_failure_keeps_snapshot checkerFail
    "could not list Nodes; fact source unavailable" rfl
  exact ⟨h.1, h.2 "n1"⟩

/-- C6: on success `getDaemonSetPodsForNode` returns exactly the synthetic
workloads — one per daemonset, built by `newPod` with the daemonset's
namespace, its pod template's spec with the node name pinned, and a fresh
draw-indexed name — for which the predicate check against the node reports a
fit. -/
theorem c6_getDaemonSetPods_exactly_fitting (ni : NodeInfo) (n : Node)
    (daemonsets : List DaemonSet)
    (checkPred : ClusterSnapshot → Pod → String → Option PredicateError)
    (randStream : Nat → Nat) (snap : ClusterSnapshot) (result : List Pod)
    (hn : ni.node = some n)
    (hadd : addNodeWithPods newBasicClusterSnapshot n ni.pods = .ok snap)
    (hres : getDaemonSetPodsForNode ni daemonsets checkPred randStream = .ok result) :
    (∀ pod, pod ∈ result ↔ ∃ j, ∃ hj : j < daemonsets.length,
      pod = newPod (daemonsets.get ⟨j, hj⟩) n.name (randStream j) ∧
      checkPred snap pod n.name = none) ∧
    (∀ ds r, (newPod ds n.name r).metadata.nameSpace = ds.metadata.nameSpace ∧
      (newPod ds n.name r).spec = { ds.spec.template.spec with nodeName := n.name } ∧
      (newPod ds n.name r).metadata.name = ds.metadata.name ++ "-pod-" ++ decimalRepr r) := by
  have hres' : result = getDaemonSetPodsGo snap n.name checkPred randStream daemonsets 0 := by
    rw [getDaemonSetPodsForNode] at hres
    rw [hn] at hres
    simp only [hadd] at hres
    exact (Except.ok.inj hres).symm
  refine ⟨?_, fun ds r => ⟨rfl, rfl, rfl⟩⟩
  intro pod
  rw [hres', getDaemonSetPodsGo_mem snap n.name checkPred randStream daemonsets 0 pod]
  constructor
  · rintro ⟨j, hj, h1, h2⟩
    exact ⟨j, hj, by simpa using h1, h2⟩
  · rintro ⟨j, hj, h1, h2⟩
    exact ⟨j, hj, by simpa using h1, h2⟩

/-- Witness instantiating C6 at a concrete input: with two daemonsets and an
always-fitting predicate check, the first daemonset's synthetic pod is in the
result. -/
theorem c6_witness :
    newPod dsA nodeSched.name 0 ∈ [newPod dsA "n2" 0, newPod dsB "n2" 0] := by
  have h := c6_getDaemonSetPods_exactly_fitting niSched nodeSched [dsA, dsB]
    (fun _ _ _ => none) (fun _ => 0) [("n2", nodeSched, [])]
    [newPod dsA "n2" 0, newPod dsB "n2" 0] rfl rfl rfl
  exact (h.1 (newPod dsA nodeSched.name 0)).mpr ⟨0, by decide, rfl, rfl⟩

/-- C7 is false as stated: a synthetic pod's name is `<dsName>-pod-<draw>`
where the draw comes from a pseudo-random source whose contract does not
exclude repeated values; two synthesis calls at distinct positions of a
possible draw stream (here the constant-zero stream) yield identical names. -/
theorem c7_counterexample :
    (newPod dsA "node-1" ((fun _ => 0) 0)).metadata.name =
      (newPod dsA "node-1" ((fun _ => 0) 1)).metadata.name := rfl

/-- C7 (amended): two synthesis calls for the same daemonset produce colliding
names exactly when their random draws coincide — the generated names are
distinct iff `rand.Int63` happens to yield distinct values, and the code adds
no guarantee beyond the random source. -/
theorem c7_name_collision_iff_draw_collision (ds : DaemonSet) (nn1 nn2 : String)
    (r1 r2 : Nat) :
    (newPod ds nn1 r1).metadata.name = (newPod ds nn2 r2).metadata.name ↔ r1 = r2 := by
  rw [newPod_name, newPod_name]
  constructor
  · intro h
    exact decimalRepr_injective (string_append_cancel_left h)
  · intro h
    rw [h]

/-- C8: a node-specific rejection attributed to the TaintToleration plugin
carries a debug payload rendering the node's current taint list; a rejection
attributed to any other plugin carries an empty debug payload. -/
theorem c8_debug_payload (fw : Framework) (pod : Pod) (ni : NodeInfo) (e : PredicateError)
    (h : checkPredicates fw pod ni = some e)
    (ht : e.errorType = .notSchedulablePredicateError) :
    (e.filterName = "TaintToleration" →
      e.debugInfo = "taints on node: " ++ formatTaints ni.nodeTaints) ∧
    (e.filterName ≠ "TaintToleration" → e.debugInfo = "") := by
  have key : ∃ fn, ∃ st : Status,
      e = ⟨.notSchedulablePredicateError, fn, st.message, st.reasons,
        buildDebugInfo fn ni⟩ := by
    by_cases hpre : (fw.preFilterResult pod).isSuccess
    · rw [checkPredicates, checkPredicatesT] at h
      simp only [hpre, Bool.not_true, Bool.false_eq_true, if_false] at h
      rcases hf : firstNonSuccess (runFilterPlugins fw pod ni) with _ | ⟨fn, st⟩
      · rw [hf] at h
        exact absurd h (by simp)
      · rw [hf] at h
        by_cases hu : st.isUnschedulable
        · simp only [hu, if_true] at h
          exact ⟨fn, st, (Option.some.inj h).symm⟩
        · exfalso
          simp only [hu, Bool.false_eq_true, if_false] at h
          rw [← Option.some.inj h] at ht
          exact PredicateErrorType.noConfusion ht
    · exfalso
      rw [checkPredicates, checkPredicates_preFilter_fail fw pod ni (by simpa using hpre)] at h
      rw [← Option.some.inj h] at ht
      exact PredicateErrorType.noConfusion ht
  obtain ⟨fn, st, he⟩ := key
  constructor
  · intro hfn
    have hfn' : fn = "TaintToleration" := by rw [he] at hfn; exact hfn
    rw [he]
    simp only [buildDebugInfo, hfn', if_pos]
  · intro hfn
    have hfn' : fn ≠ "TaintToleration" := by rw [he] at hfn; exact hfn
    rw [he]
    simp only [buildDebugInfo, hfn', if_false, ite_eq_right_iff]

/-- Witness instantiating C8 at a concrete input: a TaintToleration rejection
on a tainted node carries the rendered taint list as its debug payload. -/
theorem c8_witness :
    eTaint.debugInfo = "taints on node: " ++ formatTaints niTainted.nodeTaints := by
  have h := c8_debug_payload fwTaint podP niTainted eTaint (by decide) (by decide)
  exact h.1 (by decide)

end Autoscaler
